import Mathlib

/-!
Shallow embedding of the orchestration core of the gnark slice under
verification: the eddsa signature-verification circuit, the plonk backend
dispatch, the test-engine consistency fuzzer and deterministic-compilation
check, the KZG SRS cache, the solver options, and the emulated short
Weierstrass curve-parameter selection.

Circuit-building operations (point negation, addition, doubling,
double-base scalar multiplication, hashing) are external collaborators of
this slice; they are modelled as abstract operation fields over an
abstract value type V standing for frontend.Variable.  The circuit
assertions emitted by the code are recorded explicitly so that theorems
can speak about which constraints the code lays down.
-/

namespace Eddsa

/-- Affine point of the twisted Edwards curve as used in the circuit
(twistededwards.Point): a pair of frontend variables. -/
structure TEPoint (V : Type) where
  X : V
  Y : V
  deriving DecidableEq

/-- The slice of twistededwards.CurveParams read by Verify: the base point
coordinates Base[0], Base[1] and the cofactor (a big.Int in the source,
modelled as an unbounded integer). -/
structure TECurveParams (V : Type) where
  baseX : V
  baseY : V
  cofactor : Int

/-- The twistededwards.Curve interface operations invoked by Verify.
They are external collaborators (native curve arithmetic); the embedding
keeps them abstract. -/
structure TECurve (V : Type) where
  params : TECurveParams V
  neg : TEPoint V → TEPoint V
  add : TEPoint V → TEPoint V → TEPoint V
  double : TEPoint V → TEPoint V
  doubleBaseScalarMul : TEPoint V → TEPoint V → V → V → TEPoint V

/-- PublicKey stores an eddsa public key (a curve point A). -/
structure PublicKey (V : Type) where
  A : TEPoint V

/-- Signature stores an eddsa signature: a curve point R and a scalar S. -/
structure Signature (V : Type) where
  R : TEPoint V
  S : V

/-- Constraint emitted by the circuit: either an on-curve assertion
(curve.AssertIsOnCurve) or an equality assertion against a small literal
constant (curve.API().AssertIsEqual(x, c)). -/
inductive Assertion (V : Type) where
  | isOnCurve (p : TEPoint V)
  | assertEq (x : V) (c : Nat)
  deriving DecidableEq

/-- Log records emitted by Verify: the invalid-cofactor error log and the
unimplemented-cofactor warning, each carrying the cofactor value. -/
inductive LogRecord where
  | errInvalidCofactor (cofactor : Int)
  | warnCofactorNotImplemented (cofactor : Int)
  deriving DecidableEq

/-- Result of running Verify: the constraints laid down in order, the log
records emitted, and the error value returned by the Go function (none
models a nil error). -/
structure VerifyOutput (V : Type) where
  assertions : List (Assertion V)
  logs : List LogRecord
  err : Option String
  deriving DecidableEq

/-- big.Int.IsUint64: the integer is representable as an unsigned 64-bit
value. -/
def isUint64 (n : Int) : Prop := 0 ≤ n ∧ n < 2 ^ 64

instance (n : Int) : Decidable (isUint64 n) :=
  inferInstanceAs (Decidable (0 ≤ n ∧ n < 2 ^ 64))

/-- The point Q computed by Verify before the cofactor check:
DoubleBaseScalarMul(base, -A, S, H(R.X, R.Y, A.X, A.Y, M)), i.e. the
in-circuit value of [S]G - [H(R,A,M)]A. -/
def verifyQ0 {V : Type} (curve : TECurve V) (sig : Signature V) (msg : V)
    (pubKey : PublicKey V) (hashFn : List V → V) : TEPoint V :=
  let hRAM := hashFn [sig.R.X, sig.R.Y, pubKey.A.X, pubKey.A.Y, msg]
  let base : TEPoint V := ⟨curve.params.baseX, curve.params.baseY⟩
  curve.doubleBaseScalarMul base (curve.neg pubKey.A) sig.S hRAM

/-- The point handed to cofactor clearing: Add(Neg(Q0), R), i.e. the
in-circuit value of R - ([S]G - [H(R,A,M)]A). -/
def verifyQ1 {V : Type} (curve : TECurve V) (sig : Signature V) (msg : V)
    (pubKey : PublicKey V) (hashFn : List V → V) : TEPoint V :=
  curve.add (curve.neg (verifyQ0 curve sig msg pubKey hashFn)) sig.R

/-- Verify, translated from the eddsa circuit source: hash (R, A, M),
compute Q = [S]G - [H]A via double-base scalar multiplication, assert Q on
curve, fold in R, check the cofactor fits a uint64 (else log and return
the invalid-cofactor error), clear the cofactor by repeated doubling
(4 gives two doublings, 8 three, otherwise a warning and no change) and
assert the result equals the identity (0, 1). -/
def Verify {V : Type} (curve : TECurve V) (sig : Signature V) (msg : V)
    (pubKey : PublicKey V) (hashFn : List V → V) : VerifyOutput V :=
  let Q0 := verifyQ0 curve sig msg pubKey hashFn
  let Q1 := verifyQ1 curve sig msg pubKey hashFn
  if isUint64 curve.params.cofactor then
    let cofactor := curve.params.cofactor.toNat
    if cofactor = 4 then
      let Q2 := curve.double (curve.double Q1)
      ⟨[.isOnCurve Q0, .assertEq Q2.X 0, .assertEq Q2.Y 1], [], none⟩
    else if cofactor = 8 then
      let Q2 := curve.double (curve.double (curve.double Q1))
      ⟨[.isOnCurve Q0, .assertEq Q2.X 0, .assertEq Q2.Y 1], [], none⟩
    else
      ⟨[.isOnCurve Q0, .assertEq Q1.X 0, .assertEq Q1.Y 1],
        [.warnCofactorNotImplemented curve.params.cofactor], none⟩
  else
    ⟨[.isOnCurve Q0], [.errInvalidCofactor curve.params.cofactor],
      some ("invalid cofactor")⟩

end Eddsa

namespace Plonk

/-- Dynamic type of the constraint.ConstraintSystem interface value passed
to Setup.  The only concrete sparse R1CS registered in this code is the
BN254 one; every other dynamic type falls to the default switch case. -/
inductive CCS where
  | bn254SparseR1CS (data : Nat)
  | unsupported (tag : Nat)
  deriving DecidableEq

/-- Whether the dynamic type is the BN254 sparse R1CS. -/
def CCS.isBN254 : CCS → Bool
  | .bn254SparseR1CS _ => true
  | .unsupported _ => false

/-- Outcome of Setup: either the function returns a (pk, vk, err) triple,
or it panics with a message (Go panic, aborting the caller). -/
inductive SetupOutcome where
  | returned (pk vk : Nat) (err : Option String)
  | panicked (msg : String)
  deriving DecidableEq

/-- Setup, translated from the plonk backend dispatch: a type switch on
the constraint system.  The BN254 case delegates to plonk_bn254.Setup
(external, modelled as the delegate argument); every other case panics.
-/
def Setup (delegate : Nat → Nat → Nat × Nat × Option String)
    (ccs : CCS) (srs : Nat) : SetupOutcome :=
  match ccs with
  | .bn254SparseR1CS d =>
      let r := delegate d srs
      .returned r.1 r.2.1 r.2.2
  | .unsupported _ => .panicked ("unrecognized SparseR1CS curve type")

end Plonk

namespace TestEng

/-- Outcome of one fuzzer iteration: the FailNow abort carrying both
IsSolved verdicts and the offending witness JSON (the mismatch branch),
a FailNow raised by the enclosed solvingSucceeded or solvingFailed step,
or a normal return of the valid-witness counter contribution. -/
inductive FuzzOutcome where
  | mismatchAbort (errVars errConsts : Option String) (witnessJson : String)
  | failNow (msg : String)
  | returned (valid : Nat)
  deriving DecidableEq

/-- checkError: FailNow when the error is set, else pass.  The result is
the failure message, none meaning the check passed. -/
def checkError (e : Option String) : Option String :=
  match e with
  | some m => some m
  | none => none

/-- mustError: FailNow when the error is nil, else pass. -/
def mustError (e : Option String) : Option String :=
  match e with
  | some _ => none
  | none => some ("did not error (but should have)")

/-- solvingSucceeded: requires the reference-engine IsSolved result and the
in-system ccs.IsSolved result to both be nil, failing the test otherwise.
The compile step it also performs returns the cached, already checked
compilation, so it contributes no error here. -/
def solvingSucceeded (refErr csErr : Option String) : Option String :=
  match checkError refErr with
  | some m => some m
  | none => checkError csErr

/-- solvingFailed: requires the reference-engine IsSolved result and the
in-system ccs.IsSolved result to both be non-nil, failing the test
otherwise. -/
def solvingFailed (refErr csErr : Option String) : Option String :=
  match mustError refErr with
  | some m => some m
  | none => mustError csErr

/-- fuzzer, translated from the consistency test engine: errVars and
errConsts are the results of IsSolved in variable mode and in
constant-folded mode on the fuzzed witness, csErr is the result of
in-system solving (ccs.IsSolved) used by the follow-up step.  A verdict
mismatch logs both verdicts and the witness and aborts; agreement
dispatches to solvingSucceeded (both nil) or solvingFailed (both set). -/
def fuzzer (errVars errConsts : Option String) (witnessJson : String)
    (csErr : Option String) : FuzzOutcome :=
  if (errVars.isNone != errConsts.isNone) then
    .mismatchAbort errVars errConsts witnessJson
  else if errVars.isNone && errConsts.isNone then
    match solvingSucceeded errVars csErr with
    | some m => .failNow m
    | none => .returned 1
  else
    match solvingFailed errVars csErr with
    | some m => .failNow m
    | none => .returned 0

/-- Compilation cache of the Assert helper: key to compiled constraint
system (constraint systems are opaque here; structural deep equality is
equality of the token). -/
abbrev CompileCache := List (String × Nat)

/-- Cache lookup for the compile memoization. -/
def cacheLookup (cache : CompileCache) (k : String) : Option Nat :=
  match cache with
  | [] => none
  | (k0, c0) :: t => if k0 = k then some c0 else cacheLookup t k

/-- Result of one frontend.Compile invocation (external collaborator):
a compiled constraint system or an error. -/
inductive FCompileResult where
  | ok (c : Nat)
  | err (e : String)
  deriving DecidableEq

/-- Outcome of the test engine compile step, separating the three error
return sites of the source: a plain compile error from the first
compilation, the ErrCompilationNotDeterministic-wrapped error when the
second compilation fails, and the bare ErrCompilationNotDeterministic
when the two compiled systems differ structurally. -/
inductive CompileOutcome where
  | ok (c : Nat) (cache : CompileCache)
  | plainErr (e : String)
  | nonDetWrapped (e : String)
  | nonDet
  deriving DecidableEq

/-- errors.Is(err, ErrCompilationNotDeterministic) on the outcome: true
exactly for the bare and the wrapped non-determinism errors. -/
def isNonDeterminismFault : CompileOutcome → Bool
  | .nonDetWrapped _ => true
  | .nonDet => true
  | .ok _ _ => false
  | .plainErr _ => false

/-- compile, translated from the test engine: serve from the cache when
the key is present; otherwise compile twice (r1, r2 are the two
frontend.Compile results), report the first failure as an ordinary error,
report a second-compilation failure wrapped in
ErrCompilationNotDeterministic, report structural inequality of the two
systems as ErrCompilationNotDeterministic, and cache the result on
success. -/
def compileTwice (cache : CompileCache) (key : String)
    (r1 r2 : FCompileResult) : CompileOutcome :=
  match cacheLookup cache key with
  | some c => .ok c cache
  | none =>
    match r1 with
    | .err e => .plainErr e
    | .ok c1 =>
      match r2 with
      | .err e => .nonDetWrapped e
      | .ok c2 => if c1 = c2 then .ok c1 ((key, c1) :: cache) else .nonDet

end TestEng

namespace Srs

/-- Curve identifiers recognized by the SRS generator switch. -/
inductive EccID where
  | BN254
  | BLS12_381
  | BLS12_377
  | BLS24_317
  | BLS24_315
  deriving DecidableEq

/-- A generated SRS, recording the curve, the size it was generated at and
the random toxic-waste scalar alpha it was generated from (the kzg.NewSRS
calls are external; an SRS value is determined by these inputs). -/
structure SRS where
  curve : EccID
  size : Nat
  alpha : Nat
  deriving DecidableEq

/-- srsCachedSize constant: (1 shifted left by 14) + 3. -/
def srsCachedSize : Nat := 2 ^ 14 + 3

/-- Fuel-driven helper for the next power of two. -/
def nextPowTwoAux (n : Nat) : Nat → Nat
  | 0 => 1
  | fuel + 1 => if n ≤ 1 then 1 else 2 * nextPowTwoAux ((n + 1) / 2) fuel

/-- ecc.NextPowerOfTwo (external collaborator): the smallest power of two
at least n (and 1 for n = 0). -/
def nextPowerOfTwo (n : Nat) : Nat := nextPowTwoAux n n

/-- Per-curve SRS cache contents. -/
abbrev SrsCache := List (EccID × SRS)

/-- Lookup in the per-curve SRS cache. -/
def srsCacheLookup (cache : SrsCache) (id : EccID) : Option SRS :=
  match cache with
  | [] => none
  | (id0, s0) :: t => if id0 = id then some s0 else srsCacheLookup t id

/-- newKZGSRS, translated from the source: draw a random scalar alpha
(randAlpha models the rand.Int call, which can fail) and delegate to the
per-curve kzg.NewSRS constructor at the given size. -/
def newKZGSRS (curve : EccID) (kzgSize : Nat)
    (randAlpha : Except String Nat) : Except String SRS :=
  match randAlpha with
  | .error e => .error e
  | .ok alpha => .ok ⟨curve, kzgSize, alpha⟩

/-- getCachedSRS, translated from the source: under the cache lock, return
the existing entry for the curve if present, otherwise generate an SRS of
the fixed cached size srsCachedSize, store it and return it. -/
def getCachedSRS (curve : EccID) (cache : SrsCache)
    (randAlpha : Except String Nat) : Except String SRS × SrsCache :=
  match srsCacheLookup cache curve with
  | some srs => (.ok srs, cache)
  | none =>
    match newKZGSRS curve srsCachedSize randAlpha with
    | .error e => (.error e, cache)
    | .ok srs => (.ok srs, (curve, srs) :: cache)

/-- NewKZGSRS, translated from the source: the required size is the next
power of two of (constraint count + public variable count) plus 3; at or
under srsCachedSize the request goes through the per-curve cache,
otherwise a fresh SRS of exactly the required size is generated with the
cache untouched. -/
def NewKZGSRS (nbConstraints nbPublicVariables : Nat) (curve : EccID)
    (cache : SrsCache) (randAlpha : Except String Nat) :
    Except String SRS × SrsCache :=
  let sizeSystem := nbConstraints + nbPublicVariables
  let kzgSize := nextPowerOfTwo sizeSystem + 3
  if kzgSize ≤ srsCachedSize then
    getCachedSRS curve cache randAlpha
  else
    (newKZGSRS curve kzgSize randAlpha, cache)

end Srs

namespace Solver

/-- Hint identifiers (solver.HintID). -/
abbrev HintID := Nat

/-- Hint function values are opaque to this slice; a token identifies one
(solver.HintFn). -/
abbrev HintFn := Nat

/-- A named hint: solver.Hint pairs an ID with a function. -/
structure Hint where
  ID : HintID
  Fn : HintFn
  deriving DecidableEq

/-- Contents of one Go map from hint id to hint function, as an
association list with the usual first-match lookup. -/
abbrev MapVal := List (HintID × HintFn)

/-- Go map read m[k]. -/
def mapLookup (m : MapVal) (k : HintID) : Option HintFn :=
  match m with
  | [] => none
  | (k0, v0) :: t => if k0 = k then some v0 else mapLookup t k

/-- Go map write m[k] = v: replace the binding in place when the key is
present, append it otherwise. -/
def mapInsert (m : MapVal) (k : HintID) (v : HintFn) : MapVal :=
  match m with
  | [] => [(k, v)]
  | (k0, v0) :: t => if k0 = k then (k, v) :: t else (k0, v0) :: mapInsert t k v

/-- Body of the WithHints option, translated from the source: walk the
given hints in order over the configuration map; an id already bound logs
a duplicate-hint warning (the warned ids are collected) and keeps the
existing entry, a new id is inserted. -/
def withHintsGo (hs : List Hint) (m : MapVal) : MapVal × List HintID :=
  match hs with
  | [] => (m, [])
  | h :: t =>
    if (mapLookup m h.ID).isSome then
      let r := withHintsGo t m
      (r.1, h.ID :: r.2)
    else
      withHintsGo t (mapInsert m h.ID h.Fn)

/-- Go maps are reference values; a heap holds the map contents and a
reference is an index into it, so that aliasing between the registry map
and a configuration map is expressible. -/
structure Heap where
  maps : List MapVal
  deriving DecidableEq

/-- Dereference a map reference (a dangling reference reads as empty). -/
def Heap.get (h : Heap) (r : Nat) : MapVal := h.maps.getD r []

/-- Overwrite the contents behind a map reference. -/
def Heap.setMap (h : Heap) (r : Nat) (m : MapVal) : Heap :=
  ⟨h.maps.set r m⟩

/-- make(map[...]...): allocate a fresh empty map, returning the new heap
and the fresh reference. -/
def Heap.alloc (h : Heap) : Heap × Nat :=
  (⟨h.maps ++ [[]]⟩, h.maps.length)

/-- Solver configuration: the HintFunctions field is a reference to a map
in the heap, the logger a plain value. -/
structure SolverCfg where
  hintsRef : Nat
  logger : Nat
  deriving DecidableEq

/-- The three concrete options of the source: WithHints, OverrideHint and
WithLogger.  Each is a closure mutating the configuration; none of them
returns a non-nil error. -/
inductive SolverOpt where
  | withHints (hs : List Hint)
  | overrideHint (id : HintID) (f : HintFn)
  | withLogger (l : Nat)
  deriving DecidableEq

/-- Apply one option to the configuration, mutating the heap behind the
configuration map reference exactly as the option bodies do, and
returning the duplicate-hint warnings logged. -/
def applyOpt (o : SolverOpt) (cfg : SolverCfg) (h : Heap) :
    SolverCfg × Heap × List HintID :=
  match o with
  | .withHints hs =>
      let r := withHintsGo hs (h.get cfg.hintsRef)
      (cfg, h.setMap cfg.hintsRef r.1, r.2)
  | .overrideHint id f =>
      (cfg, h.setMap cfg.hintsRef (mapInsert (h.get cfg.hintsRef) id f), [])
  | .withLogger l =>
      ({ cfg with logger := l }, h, [])

/-- Apply the options in order, accumulating the warnings. -/
def applyOpts (opts : List SolverOpt) (cfg : SolverCfg) (h : Heap) :
    SolverCfg × Heap × List HintID :=
  match opts with
  | [] => (cfg, h, [])
  | o :: t =>
    let r := applyOpt o cfg h
    let s := applyOpts t r.1 r.2.1
    (s.1, s.2.1, r.2.2 ++ s.2.2)

/-- Value-level effect of one option on the hint map alone. -/
def applyOptVal (o : SolverOpt) (m : MapVal) : MapVal :=
  match o with
  | .withHints hs => (withHintsGo hs m).1
  | .overrideHint id f => mapInsert m id f
  | .withLogger _ => m

/-- Value-level effect of an option list on the hint map alone. -/
def applyOptsVal (opts : List SolverOpt) (m : MapVal) : MapVal :=
  match opts with
  | [] => m
  | o :: t => applyOptsVal t (applyOptVal o m)

/-- The copy loop of NewConfig: for k, v over the registry contents,
insert into the freshly made map. -/
def copyMap (src : MapVal) : MapVal :=
  src.foldl (fun acc p => mapInsert acc p.1 p.2) []

/-- NewConfig, translated from the source: allocate a fresh map for the
configuration, copy every entry of the global hint registry (the map
behind registryRef, read by GetRegisteredHints) into it, then apply the
options in order.  Returns the configuration, the final heap and the
warnings logged. -/
def NewConfig (h : Heap) (registryRef : Nat) (defaultLogger : Nat)
    (opts : List SolverOpt) : SolverCfg × Heap × List HintID :=
  let ar := h.alloc
  let h1 := ar.1
  let r := ar.2
  let h2 := h1.setMap r (copyMap (h1.get registryRef))
  applyOpts opts ⟨r, defaultLogger⟩ h2

end Solver

namespace SwEmulated

/-- Short Weierstrass curve parameters returned by GetCurveParams: the
coefficients a and b and the base point.  The precomputed multiples table
Gm is produced by table-generation code outside this slice and plays no
role in parameter selection, so it is not modelled. -/
structure CurveParams where
  A : Int
  B : Int
  Gx : Int
  Gy : Int
  deriving DecidableEq

/-- GetSecp256k1Params: a = 0, b = 7 and the secp256k1 generator (from
the external curve library). -/
def GetSecp256k1Params : CurveParams :=
  { A := 0
    B := 7
    Gx := 0x79be667ef9dcbbac55a06295ce870b07029bfcdb2dce28d959f2815b16f81798
    Gy := 0x483ada7726a3c4655da4fbfc0e1108a8fd17b448a68554199c47d08ffb10d4b8 }

/-- GetBN254Params: a = 0, b = 3 and the BN254 G1 generator (1, 2) (from
the external curve library). -/
def GetBN254Params : CurveParams :=
  { A := 0, B := 3, Gx := 1, Gy := 2 }

/-- Package-level secp256k1Params, filled by the package init from
GetSecp256k1Params. -/
def secp256k1Params : CurveParams := GetSecp256k1Params

/-- Package-level bn254Params, filled by the package init from
GetBN254Params. -/
def bn254Params : CurveParams := GetBN254Params

/-- The secp256k1 base-field modulus, the first case of the switch on
Modulus().Text(16). -/
def secp256k1Modulus : Nat :=
  0xfffffffffffffffffffffffffffffffffffffffffffffffffffffffefffffc2f

/-- The BN254 base-field modulus, the second case of the switch on
Modulus().Text(16). -/
def bn254Modulus : Nat :=
  0x30644e72e131a029b85045b68181585d97816a916871ca8d3c208c16d87cfd47

/-- Outcome of GetCurveParams: a returned parameter set or a panic. -/
inductive GetParamsOutcome where
  | ok (p : CurveParams)
  | panicked (msg : String)
  deriving DecidableEq

/-- GetCurveParams, translated from the source: the switch compares the
hexadecimal rendering of the Base field modulus (equivalently, for
nonnegative moduli, the modulus value) against the secp256k1 and BN254
base-field moduli and returns the matching stored parameter set; any
other modulus panics. -/
def GetCurveParams (modulus : Nat) : GetParamsOutcome :=
  if modulus = secp256k1Modulus then .ok secp256k1Params
  else if modulus = bn254Modulus then .ok bn254Params
  else .panicked ("no stored parameters")

end SwEmulated

/-!
Concrete instances used by the witness theorems.
-/

/-- A concrete twisted Edwards curve instance over Nat with cofactor 4,
with operations chosen so that every intermediate point is computable. -/
def testCurve4 : Eddsa.TECurve Nat :=
  { params := ⟨5, 6, 4⟩
    neg := fun p => ⟨p.X + 1, p.Y + 2⟩
    add := fun p q => ⟨p.X + 10 * q.X, p.Y + 10 * q.Y⟩
    double := fun p => ⟨2 * p.X, 2 * p.Y⟩
    doubleBaseScalarMul := fun p q a b => ⟨p.X + q.X + a, p.Y + q.Y + b⟩ }

/-- The same concrete curve with a cofactor too large for a uint64. -/
def testCurveHuge : Eddsa.TECurve Nat :=
  { testCurve4 with params := ⟨5, 6, 2 ^ 64⟩ }

/-- A concrete signature value. -/
def testSig : Eddsa.Signature Nat := ⟨⟨1, 2⟩, 3⟩

/-- A concrete public key value. -/
def testPubKey : Eddsa.PublicKey Nat := ⟨⟨7, 8⟩⟩

/-- A concrete in-circuit hash: the sum of the written values. -/
def testHash : List Nat → Nat := fun l => l.foldl (fun a b => a + b) 0

/-- A concrete stand-in for the external plonk_bn254.Setup delegate. -/
def testDelegate : Nat → Nat → Nat × Nat × Option String :=
  fun a b => (a + b, a * b, none)

/-!
Theorems for the claims, with their witnesses.
-/

/-- C1: in the signature-verification circuit, for every curve whose
cofactor fits a uint64, every public key, signature, message and hash,
Verify clears the cofactor of R - ([S]G - [H(R,A,M)]A) by exactly two
doublings when the cofactor is 4 and exactly three when it is 8, for any
other uint64 cofactor only logs a warning and leaves the point unchanged,
and then asserts the resulting point equals the identity, i.e. asserts
X = 0 and Y = 1. -/
theorem verify_cofactor_clearing {V : Type} (curve : Eddsa.TECurve V)
    (sig : Eddsa.Signature V) (msg : V) (pubKey : Eddsa.PublicKey V)
    (hashFn : List V → V) (h : Eddsa.isUint64 curve.params.cofactor) :
    (curve.params.cofactor = 4 →
      Eddsa.Verify curve sig msg pubKey hashFn =
        ⟨[.isOnCurve (Eddsa.verifyQ0 curve sig msg pubKey hashFn),
          .assertEq (curve.double (curve.double
            (Eddsa.verifyQ1 curve sig msg pubKey hashFn))).X 0,
          .assertEq (curve.double (curve.double
            (Eddsa.verifyQ1 curve sig msg pubKey hashFn))).Y 1], [], none⟩)
    ∧ (curve.params.cofactor = 8 →
      Eddsa.Verify curve sig msg pubKey hashFn =
        ⟨[.isOnCurve (Eddsa.verifyQ0 curve sig msg pubKey hashFn),
          .assertEq (curve.double (curve.double (curve.double
            (Eddsa.verifyQ1 curve sig msg pubKey hashFn)))).X 0,
          .assertEq (curve.double (curve.double (curve.double
            (Eddsa.verifyQ1 curve sig msg pubKey hashFn)))).Y 1], [], none⟩)
    ∧ (curve.params.cofactor ≠ 4 → curve.params.cofactor ≠ 8 →
      Eddsa.Verify curve sig msg pubKey hashFn =
        ⟨[.isOnCurve (Eddsa.verifyQ0 curve sig msg pubKey hashFn),
          .assertEq (Eddsa.verifyQ1 curve sig msg pubKey hashFn).X 0,
          .assertEq (Eddsa.verifyQ1 curve sig msg pubKey hashFn).Y 1],
          [.warnCofactorNotImplemented curve.params.cofactor], none⟩) := by
  refine ⟨?_, ?_, ?_⟩
  · intro h4
    simp [Eddsa.Verify, h, h4]
    decide
  · intro h8
    simp [Eddsa.Verify, h, h8]
    decide
  · intro h4 h8
    have hn4 : curve.params.cofactor.toNat ≠ 4 := by
      intro hc
      apply h4
      omega
    have hn8 : curve.params.cofactor.toNat ≠ 8 := by
      intro hc
      apply h8
      omega
    simp [Eddsa.Verify, h, hn4, hn8]

/-- Witness for C1: the cofactor-4 branch of Verify evaluated on a
concrete curve, signature, public key and message. -/
theorem verify_cofactor_clearing_witness :
    Eddsa.isUint64 testCurve4.params.cofactor ∧
    Eddsa.Verify testCurve4 testSig 30 testPubKey testHash =
      ⟨[.isOnCurve ⟨16, 64⟩, .assertEq 108 0, .assertEq 344 1], [], none⟩ := by
  refine ⟨by decide, ?_⟩
  exact ((verify_cofactor_clearing testCurve4 testSig 30 testPubKey testHash
    (by decide)).1 (by decide)).trans (by decide)

/-- C9: for every curve whose declared cofactor does not fit a uint64,
Verify returns the invalid-cofactor error as a recoverable returned
value, after only the on-curve assertion: no cofactor-clearing doubling
is performed and no identity assertion is emitted. -/
theorem verify_invalid_cofactor {V : Type} (curve : Eddsa.TECurve V)
    (sig : Eddsa.Signature V) (msg : V) (pubKey : Eddsa.PublicKey V)
    (hashFn : List V → V) (h : ¬ Eddsa.isUint64 curve.params.cofactor) :
    Eddsa.Verify curve sig msg pubKey hashFn =
      ⟨[.isOnCurve (Eddsa.verifyQ0 curve sig msg pubKey hashFn)],
        [.errInvalidCofactor curve.params.cofactor],
        some ("invalid cofactor")⟩ := by
  simp [Eddsa.Verify, h]

/-- Witness for C9: Verify on a concrete curve whose cofactor is 2^64. -/
theorem verify_invalid_cofactor_witness :
    ¬ Eddsa.isUint64 testCurveHuge.params.cofactor ∧
    Eddsa.Verify testCurveHuge testSig 30 testPubKey testHash =
      ⟨[.isOnCurve ⟨16, 64⟩], [.errInvalidCofactor (2 ^ 64)],
        some ("invalid cofactor")⟩ := by
  refine ⟨by decide, ?_⟩
  exact (verify_invalid_cofactor testCurveHuge testSig 30 testPubKey testHash
    (by decide)).trans (by decide)

/-- C2: for every constraint system whose dynamic type is not the BN254
sparse R1CS, the plonk backend Setup panics with the
unrecognized-curve-type message and never returns a (pk, vk, err)
triple. -/
theorem setup_unsupported_panics
    (delegate : Nat → Nat → Nat × Nat × Option String) (ccs : Plonk.CCS)
    (srs : Nat) (h : ccs.isBN254 = false) :
    Plonk.Setup delegate ccs srs =
      .panicked ("unrecognized SparseR1CS curve type") ∧
    ∀ pk vk e, Plonk.Setup delegate ccs srs ≠ .returned pk vk e := by
  cases ccs with
  | bn254SparseR1CS d => simp [Plonk.CCS.isBN254] at h
  | unsupported t =>
    refine ⟨rfl, ?_⟩
    intro pk vk e hc
    simp [Plonk.Setup] at hc

/-- Witness for C2: Setup at a concrete unsupported constraint system
panics and is distinct from a concrete returned triple. -/
theorem setup_unsupported_panics_witness :
    Plonk.Setup testDelegate (.unsupported 0) 7 =
      .panicked ("unrecognized SparseR1CS curve type") ∧
    Plonk.Setup testDelegate (.unsupported 0) 7 ≠ .returned 0 0 none := by
  have h := setup_unsupported_panics testDelegate (.unsupported 0) 7 (by decide)
  exact ⟨h.1, h.2 0 0 none⟩

/-- C3: the consistency fuzzer compares the variable-mode and
constant-folded IsSolved verdicts; when exactly one succeeds it aborts
the run logging both verdicts and the offending witness; when both
succeed it requires in-system solving to succeed, and when both fail it
requires in-system solving to fail. -/
theorem fuzzer_mode_agreement (errVars errConsts : Option String)
    (w : String) (csErr : Option String) :
    ((errVars.isNone ≠ errConsts.isNone) →
      TestEng.fuzzer errVars errConsts w csErr =
        .mismatchAbort errVars errConsts w)
    ∧ (errVars = none → errConsts = none →
        (csErr = none → TestEng.fuzzer errVars errConsts w csErr = .returned 1)
        ∧ (∀ e, csErr = some e →
            TestEng.fuzzer errVars errConsts w csErr = .failNow e))
    ∧ (∀ e1 e2, errVars = some e1 → errConsts = some e2 →
        ((∃ e, csErr = some e) →
          TestEng.fuzzer errVars errConsts w csErr = .returned 0)
        ∧ (csErr = none → TestEng.fuzzer errVars errConsts w csErr =
            .failNow ("did not error (but should have)"))) := by
  refine ⟨?_, ?_, ?_⟩
  · intro hne
    cases errVars <;> cases errConsts <;>
      simp_all [TestEng.fuzzer]
  · intro hv hc
    subst hv
    subst hc
    constructor
    · intro hcs
      subst hcs
      rfl
    · intro e hcs
      subst hcs
      rfl
  · intro e1 e2 hv hc
    subst hv
    subst hc
    constructor
    · rintro ⟨e, hcs⟩
      subst hcs
      rfl
    · intro hcs
      subst hcs
      rfl

/-- Witness for C3: a concrete mismatch aborts with both verdicts and the
witness, a concrete agreement on success returns 1, and a concrete
agreement on failure returns 0. -/
theorem fuzzer_mode_agreement_witness :
    TestEng.fuzzer (some ("boom")) none ("w0") none =
      .mismatchAbort (some ("boom")) none ("w0")
    ∧ TestEng.fuzzer none none ("w1") none = .returned 1
    ∧ TestEng.fuzzer (some ("a")) (some ("b")) ("w2") (some ("c")) =
        .returned 0 := by
  refine ⟨?_, ?_, ?_⟩
  · exact (fuzzer_mode_agreement (some ("boom")) none ("w0") none).1 (by decide)
  · exact ((fuzzer_mode_agreement none none ("w1") none).2.1 rfl rfl).1 rfl
  · exact ((fuzzer_mode_agreement (some ("a")) (some ("b")) ("w2")
      (some ("c"))).2.2 ("a") ("b") rfl rfl).1 ⟨("c"), rfl⟩

/-- C4 counterexample: on a cache miss where the first compilation
succeeds and the second fails, the compile step reports the compilation
failure wrapped in ErrCompilationNotDeterministic, i.e. as the
non-determinism fault and not as an ordinary compile error, contrary to
the claim that a compilation failure is always reported as an ordinary
compile error. -/
theorem compile_second_failure_counterexample :
    TestEng.compileTwice [] ("k") (.ok 0) (.err ("boom")) =
      .nonDetWrapped ("boom")
    ∧ TestEng.isNonDeterminismFault
        (TestEng.compileTwice [] ("k") (.ok 0) (.err ("boom"))) = true
    ∧ ∀ e, TestEng.compileTwice [] ("k") (.ok 0) (.err ("boom")) ≠
        .plainErr e := by
  refine ⟨rfl, rfl, ?_⟩
  intro e hc
  simp [TestEng.compileTwice, TestEng.cacheLookup] at hc

/-- C4 (amended): on a cache miss the test engine compiles twice;
structural inequality of the two compiled systems is reported as the bare
non-determinism fault; a failure of the first compilation is reported as
an ordinary compile error which is not a non-determinism fault; a failure
of the second compilation after a successful first is reported as the
non-determinism fault wrapping the compile error; and agreement caches
and returns the compiled system. -/
theorem compile_determinism_fault (cache : TestEng.CompileCache)
    (key : String) (r1 r2 : TestEng.FCompileResult)
    (hmiss : TestEng.cacheLookup cache key = none) :
    (∀ c1 c2, r1 = .ok c1 → r2 = .ok c2 → c1 ≠ c2 →
      TestEng.compileTwice cache key r1 r2 = .nonDet
      ∧ TestEng.isNonDeterminismFault .nonDet = true)
    ∧ (∀ e, r1 = .err e →
      TestEng.compileTwice cache key r1 r2 = .plainErr e
      ∧ TestEng.isNonDeterminismFault (.plainErr e) = false)
    ∧ (∀ c1 e, r1 = .ok c1 → r2 = .err e →
      TestEng.compileTwice cache key r1 r2 = .nonDetWrapped e
      ∧ TestEng.isNonDeterminismFault (.nonDetWrapped e) = true)
    ∧ (∀ c1 c2, r1 = .ok c1 → r2 = .ok c2 → c1 = c2 →
      TestEng.compileTwice cache key r1 r2 = .ok c1 ((key, c1) :: cache)) := by
  refine ⟨?_, ?_, ?_, ?_⟩
  · intro c1 c2 h1 h2 hne
    subst h1
    subst h2
    refine ⟨?_, rfl⟩
    simp [TestEng.compileTwice, hmiss, hne]
  · intro e h1
    subst h1
    exact ⟨by simp [TestEng.compileTwice, hmiss], rfl⟩
  · intro c1 e h1 h2
    subst h1
    subst h2
    exact ⟨by simp [TestEng.compileTwice, hmiss], rfl⟩
  · intro c1 c2 h1 h2 heq
    subst h1
    subst h2
    subst heq
    simp [TestEng.compileTwice, hmiss]

/-- Witness for C4: the amended behavior evaluated at concrete inputs,
one per branch. -/
theorem compile_determinism_fault_witness :
    TestEng.compileTwice [] ("k") (.ok 5) (.ok 6) = .nonDet
    ∧ TestEng.compileTwice [] ("k") (.err ("e1")) (.ok 5) = .plainErr ("e1")
    ∧ TestEng.compileTwice [] ("k") (.ok 5) (.err ("e2")) =
        .nonDetWrapped ("e2")
    ∧ TestEng.compileTwice [] ("k") (.ok 5) (.ok 5) =
        .ok 5 [(("k"), 5)] := by
  refine ⟨?_, ?_, ?_, ?_⟩
  · exact ((compile_determinism_fault [] ("k") (.ok 5) (.ok 6) rfl).1
      5 6 rfl rfl (by decide)).1
  · exact ((compile_determinism_fault [] ("k") (.err ("e1")) (.ok 5) rfl).2.1
      ("e1") rfl).1
  · exact ((compile_determinism_fault [] ("k") (.ok 5) (.err ("e2")) rfl).2.2.1
      5 ("e2") rfl rfl).1
  · exact (compile_determinism_fault [] ("k") (.ok 5) (.ok 5) rfl).2.2.2
      5 5 rfl rfl rfl

/-- Helper: a freshly stored entry is found at the head of the SRS cache. -/
theorem srsCacheLookup_cons_self (curve : Srs.EccID) (s : Srs.SRS)
    (cache : Srs.SrsCache) :
    Srs.srsCacheLookup ((curve, s) :: cache) curve = some s := by
  simp [Srs.srsCacheLookup]

/-- C5: NewKZGSRS computes the required size as
nextPowerOfTwo(constraints + public variables) + 3; at or under the
threshold 2^14 + 3 it serves the request through the per-curve cache,
generating on a miss an SRS of the fixed cached size 2^14 + 3 rather
than the requested size; above the threshold it generates a fresh SRS of
exactly the requested size without consulting or changing the cache. -/
theorem newKZGSRS_size_policy (nbC nbP : Nat) (curve : Srs.EccID)
    (cache : Srs.SrsCache) (a : Nat) :
    (Srs.nextPowerOfTwo (nbC + nbP) + 3 ≤ Srs.srsCachedSize →
      Srs.srsCacheLookup cache curve = none →
      Srs.NewKZGSRS nbC nbP curve cache (.ok a) =
        (.ok ⟨curve, Srs.srsCachedSize, a⟩,
          (curve, ⟨curve, Srs.srsCachedSize, a⟩) :: cache))
    ∧ (Srs.nextPowerOfTwo (nbC + nbP) + 3 ≤ Srs.srsCachedSize →
        ∀ srs, Srs.srsCacheLookup cache curve = some srs →
        Srs.NewKZGSRS nbC nbP curve cache (.ok a) = (.ok srs, cache))
    ∧ (Srs.srsCachedSize < Srs.nextPowerOfTwo (nbC + nbP) + 3 →
        Srs.NewKZGSRS nbC nbP curve cache (.ok a) =
          (.ok ⟨curve, Srs.nextPowerOfTwo (nbC + nbP) + 3, a⟩, cache)) := by
  refine ⟨?_, ?_, ?_⟩
  · intro hle hmiss
    simp [Srs.NewKZGSRS, Srs.getCachedSRS, Srs.newKZGSRS, hle, hmiss]
  · intro hle srs hhit
    simp [Srs.NewKZGSRS, Srs.getCachedSRS, hle, hhit]
  · intro hgt
    have hnle : ¬ (Srs.nextPowerOfTwo (nbC + nbP) + 3 ≤ Srs.srsCachedSize) :=
      Nat.not_le.mpr hgt
    simp [Srs.NewKZGSRS, Srs.newKZGSRS, hnle]

/-- Witness for C5: a small system goes through the cache and is
generated at the fixed cached size; a large system is generated fresh at
the requested size with the cache untouched. -/
theorem newKZGSRS_size_policy_witness :
    Srs.NewKZGSRS 1 1 .BN254 [] (.ok 7) =
      (.ok ⟨.BN254, 2 ^ 14 + 3, 7⟩, [(.BN254, ⟨.BN254, 2 ^ 14 + 3, 7⟩)])
    ∧ Srs.NewKZGSRS 16385 0 .BN254 [] (.ok 7) =
        (.ok ⟨.BN254, 2 ^ 15 + 3, 7⟩, []) := by
  constructor
  · exact ((newKZGSRS_size_policy 1 1 .BN254 [] 7).1 (by decide) rfl).trans
      (by rfl)
  · exact ((newKZGSRS_size_policy 16385 0 .BN254 [] 7).2.2 (by decide)).trans
      (by rfl)

/-- C6: for a required size at or under the threshold, two successive
NewKZGSRS calls over the same curve return the same SRS value, the
second serving the entry stored by the first; above the threshold each
call generates an independent SRS from its own randomness and the cache
is bypassed (left unchanged), so distinct random scalars give distinct
results. -/
theorem srs_cache_idempotence (nbC nbP : Nat) (curve : Srs.EccID)
    (cache : Srs.SrsCache) (a1 a2 : Nat) :
    (Srs.nextPowerOfTwo (nbC + nbP) + 3 ≤ Srs.srsCachedSize →
      ∃ srs, (Srs.NewKZGSRS nbC nbP curve cache (.ok a1)).1 = .ok srs
        ∧ (Srs.NewKZGSRS nbC nbP curve
            (Srs.NewKZGSRS nbC nbP curve cache (.ok a1)).2 (.ok a2)).1 =
            .ok srs)
    ∧ (Srs.srsCachedSize < Srs.nextPowerOfTwo (nbC + nbP) + 3 →
        Srs.NewKZGSRS nbC nbP curve cache (.ok a1) =
          (.ok ⟨curve, Srs.nextPowerOfTwo (nbC + nbP) + 3, a1⟩, cache)
        ∧ Srs.NewKZGSRS nbC nbP curve
            (Srs.NewKZGSRS nbC nbP curve cache (.ok a1)).2 (.ok a2) =
          (.ok ⟨curve, Srs.nextPowerOfTwo (nbC + nbP) + 3, a2⟩, cache)
        ∧ (a1 ≠ a2 →
            (Srs.NewKZGSRS nbC nbP curve cache (.ok a1)).1 ≠
              (Srs.NewKZGSRS nbC nbP curve
                (Srs.NewKZGSRS nbC nbP curve cache (.ok a1)).2 (.ok a2)).1)) := by
  have hpol1 := newKZGSRS_size_policy nbC nbP curve cache a1
  constructor
  · intro hle
    cases hl : Srs.srsCacheLookup cache curve with
    | some srs =>
      have h1 := hpol1.2.1 hle srs hl
      refine ⟨srs, ?_, ?_⟩
      · rw [h1]
      · rw [h1]
        exact congrArg Prod.fst
          ((newKZGSRS_size_policy nbC nbP curve cache a2).2.1 hle srs hl)
    | none =>
      have h1 := hpol1.1 hle hl
      refine ⟨⟨curve, Srs.srsCachedSize, a1⟩, ?_, ?_⟩
      · rw [h1]
      · rw [h1]
        exact congrArg Prod.fst
          ((newKZGSRS_size_policy nbC nbP curve
              ((curve, ⟨curve, Srs.srsCachedSize, a1⟩) :: cache) a2).2.1 hle
            ⟨curve, Srs.srsCachedSize, a1⟩
            (srsCacheLookup_cons_self curve ⟨curve, Srs.srsCachedSize, a1⟩ cache))
  · intro hgt
    have h1 := hpol1.2.2 hgt
    have h2 := (newKZGSRS_size_policy nbC nbP curve cache a2).2.2 hgt
    refine ⟨h1, ?_, ?_⟩
    · rw [h1]
      exact h2
    · intro hne
      simp [h1, h2, hne]

/-- Witness for C6: two successive calls at a small size on an empty
cache both return the SRS stored by the first call; two calls at a large
size with distinct randomness return distinct SRS values and leave the
cache empty. -/
theorem srs_cache_idempotence_witness :
    (∃ srs, (Srs.NewKZGSRS 1 1 .BN254 [] (.ok 5)).1 = .ok srs
      ∧ (Srs.NewKZGSRS 1 1 .BN254
          (Srs.NewKZGSRS 1 1 .BN254 [] (.ok 5)).2 (.ok 6)).1 = .ok srs)
    ∧ (Srs.NewKZGSRS 16385 0 .BN254 [] (.ok 5)).1 ≠
        (Srs.NewKZGSRS 16385 0 .BN254
          (Srs.NewKZGSRS 16385 0 .BN254 [] (.ok 5)).2 (.ok 6)).1 := by
  constructor
  · exact (srs_cache_idempotence 1 1 .BN254 [] 5 6).1 (by decide)
  · exact ((srs_cache_idempotence 16385 0 .BN254 [] 5 6).2 (by decide)).2.2
      (by decide)


/-- Helper: writing a key makes it readable with the written value. -/
theorem mapLookup_mapInsert_self (m : Solver.MapVal) (k : Solver.HintID)
    (v : Solver.HintFn) :
    Solver.mapLookup (Solver.mapInsert m k v) k = some v := by
  induction m with
  | nil => simp [Solver.mapInsert, Solver.mapLookup]
  | cons p t ih =>
    rcases p with ⟨k0, v0⟩
    by_cases h : k0 = k
    · subst h
      simp [Solver.mapInsert, Solver.mapLookup]
    · simp [Solver.mapInsert, Solver.mapLookup, h, ih]

/-- Helper: writing a key leaves every other key unchanged. -/
theorem mapLookup_mapInsert_ne (m : Solver.MapVal) (k : Solver.HintID)
    (v : Solver.HintFn) (j : Solver.HintID) (hkj : k ≠ j) :
    Solver.mapLookup (Solver.mapInsert m k v) j = Solver.mapLookup m j := by
  induction m with
  | nil => simp [Solver.mapInsert, Solver.mapLookup, hkj]
  | cons p t ih =>
    rcases p with ⟨k0, v0⟩
    by_cases h : k0 = k
    · subst h
      simp [Solver.mapInsert, Solver.mapLookup, hkj]
    · by_cases hj : k0 = j
      · subst hj
        simp [Solver.mapInsert, Solver.mapLookup, h]
      · simp [Solver.mapInsert, Solver.mapLookup, h, hj, ih]

/-- Helper: ids bound before WithHints keep their binding after it. -/
theorem withHintsGo_preserves (hs : List Solver.Hint) (m : Solver.MapVal)
    (id : Solver.HintID) (h : (Solver.mapLookup m id).isSome) :
    Solver.mapLookup (Solver.withHintsGo hs m).1 id = Solver.mapLookup m id := by
  induction hs generalizing m with
  | nil => rfl
  | cons h0 t ih =>
    cases hd : (Solver.mapLookup m h0.ID).isSome with
    | true =>
      have hgoal : (Solver.withHintsGo (h0 :: t) m).1 =
          (Solver.withHintsGo t m).1 := by
        simp [Solver.withHintsGo, hd]
      rw [hgoal]
      exact ih m h
    | false =>
      have hne : h0.ID ≠ id := by
        intro he
        rw [he] at hd
        rw [h] at hd
        simp at hd
      have hpre := mapLookup_mapInsert_ne m h0.ID h0.Fn id hne
      have hgoal : (Solver.withHintsGo (h0 :: t) m).1 =
          (Solver.withHintsGo t (Solver.mapInsert m h0.ID h0.Fn)).1 := by
        simp [Solver.withHintsGo, hd]
      rw [hgoal]
      rw [ih (Solver.mapInsert m h0.ID h0.Fn) (by rw [hpre]; exact h)]
      exact hpre

/-- Helper: an id unbound before WithHints ends bound to the function of
the first hint in the list carrying it, and stays unbound when no hint
carries it. -/
theorem withHintsGo_new (hs : List Solver.Hint) (m : Solver.MapVal)
    (id : Solver.HintID) (h : Solver.mapLookup m id = none) :
    Solver.mapLookup (Solver.withHintsGo hs m).1 id =
      (hs.find? (fun x => x.ID == id)).map Solver.Hint.Fn := by
  induction hs generalizing m with
  | nil => simp [Solver.withHintsGo, h]
  | cons h0 t ih =>
    cases hd : (Solver.mapLookup m h0.ID).isSome with
    | true =>
      have hne : h0.ID ≠ id := by
        intro he
        rw [he] at hd
        rw [h] at hd
        simp at hd
      have hbe : (h0.ID == id) = false := by simp [hne]
      have hgoal : (Solver.withHintsGo (h0 :: t) m).1 =
          (Solver.withHintsGo t m).1 := by
        simp [Solver.withHintsGo, hd]
      rw [hgoal]
      rw [ih m h]
      simp [List.find?, hbe]
    | false =>
      by_cases he : h0.ID = id
      · subst he
        have hself := mapLookup_mapInsert_self m h0.ID h0.Fn
        have hp := withHintsGo_preserves t (Solver.mapInsert m h0.ID h0.Fn)
          h0.ID (by rw [hself]; rfl)
        have hgoal : (Solver.withHintsGo (h0 :: t) m).1 =
            (Solver.withHintsGo t (Solver.mapInsert m h0.ID h0.Fn)).1 := by
          simp [Solver.withHintsGo, hd]
        rw [hgoal, hp, hself]
        simp [List.find?]
      · have hbe : (h0.ID == id) = false := by simp [he]
        have hm : Solver.mapLookup (Solver.mapInsert m h0.ID h0.Fn) id =
            none := by
          rw [mapLookup_mapInsert_ne m h0.ID h0.Fn id he]
          exact h
        have hgoal : (Solver.withHintsGo (h0 :: t) m).1 =
            (Solver.withHintsGo t (Solver.mapInsert m h0.ID h0.Fn)).1 := by
          simp [Solver.withHintsGo, hd]
        rw [hgoal]
        rw [ih (Solver.mapInsert m h0.ID h0.Fn) hm]
        simp [List.find?, hbe]

/-- Helper: a hint whose id was already bound when it was processed gets
a duplicate warning logged. -/
theorem withHintsGo_warns (hs : List Solver.Hint) (m : Solver.MapVal) :
    ∀ h ∈ hs, (Solver.mapLookup m h.ID).isSome →
      h.ID ∈ (Solver.withHintsGo hs m).2 := by
  induction hs generalizing m with
  | nil =>
    intro h hmem
    simp at hmem
  | cons h0 t ih =>
    intro h hmem hsome
    cases hd : (Solver.mapLookup m h0.ID).isSome with
    | true =>
      have hgoal : (Solver.withHintsGo (h0 :: t) m).2 =
          h0.ID :: (Solver.withHintsGo t m).2 := by
        simp [Solver.withHintsGo, hd]
      rw [hgoal]
      rcases List.mem_cons.mp hmem with he | ht
      · subst he
        exact List.mem_cons_self _ _
      · exact List.mem_cons_of_mem _ (ih m h ht hsome)
    | false =>
      have hne : h.ID ≠ h0.ID := by
        intro he
        rw [he] at hsome
        rw [hd] at hsome
        simp at hsome
      have ht : h ∈ t := by
        rcases List.mem_cons.mp hmem with he | ht2
        · exfalso
          apply hne
          rw [he]
        · exact ht2
      have hgoal : (Solver.withHintsGo (h0 :: t) m).2 =
          (Solver.withHintsGo t (Solver.mapInsert m h0.ID h0.Fn)).2 := by
        simp [Solver.withHintsGo, hd]
      rw [hgoal]
      refine ih (Solver.mapInsert m h0.ID h0.Fn) h ht ?_
      rw [mapLookup_mapInsert_ne m h0.ID h0.Fn h.ID (Ne.symm hne)]
      exact hsome

/-- C7: for every solver configuration map and hint sequence given to
WithHints, a hint whose id is already bound keeps the existing entry
unchanged and logs a duplicate-hint warning, while an id not yet present
is added (bound to the function of the first hint carrying it, and left
absent when no hint carries it). -/
theorem withHints_duplicate_policy (m : Solver.MapVal)
    (hs : List Solver.Hint) :
    (∀ id, (Solver.mapLookup m id).isSome →
      Solver.mapLookup (Solver.withHintsGo hs m).1 id = Solver.mapLookup m id)
    ∧ (∀ h ∈ hs, (Solver.mapLookup m h.ID).isSome →
        h.ID ∈ (Solver.withHintsGo hs m).2)
    ∧ (∀ id, Solver.mapLookup m id = none →
        Solver.mapLookup (Solver.withHintsGo hs m).1 id =
          (hs.find? (fun x => x.ID == id)).map Solver.Hint.Fn) :=
  ⟨fun id h => withHintsGo_preserves hs m id h,
   withHintsGo_warns hs m,
   fun id h => withHintsGo_new hs m id h⟩

/-- Witness for C7: on a concrete map binding id 1 and a hint list
carrying a duplicate for id 1 and a new id 2, the duplicate is not
installed and is warned about, and the new id is installed. -/
theorem withHints_duplicate_policy_witness :
    Solver.mapLookup (Solver.withHintsGo [⟨1, 99⟩, ⟨2, 20⟩] [(1, 10)]).1 1 =
      some 10
    ∧ (1 : Solver.HintID) ∈ (Solver.withHintsGo [⟨1, 99⟩, ⟨2, 20⟩] [(1, 10)]).2
    ∧ Solver.mapLookup (Solver.withHintsGo [⟨1, 99⟩, ⟨2, 20⟩] [(1, 10)]).1 2 =
        some 20 := by
  refine ⟨?_, ?_, ?_⟩
  · exact ((withHints_duplicate_policy [(1, 10)] [⟨1, 99⟩, ⟨2, 20⟩]).1 1
      (by decide)).trans (by decide)
  · exact (withHints_duplicate_policy [(1, 10)] [⟨1, 99⟩, ⟨2, 20⟩]).2.1
      ⟨1, 99⟩ (by decide) (by decide)
  · exact ((withHints_duplicate_policy [(1, 10)] [⟨1, 99⟩, ⟨2, 20⟩]).2.2 2
      (by decide)).trans (by decide)

/-- Helper: reading a just-written list position gives the written value. -/
theorem list_getD_set_self {α : Type} (l : List α) :
    ∀ (r : Nat) (m d : α), r < l.length → (l.set r m).getD r d = m := by
  induction l with
  | nil =>
    intro r m d h
    simp at h
  | cons a t ih =>
    intro r m d h
    cases r with
    | zero => rfl
    | succ r2 =>
      simp only [List.length_cons] at h
      exact ih r2 m d (Nat.lt_of_succ_lt_succ h)

/-- Helper: writing one list position leaves the others unchanged. -/
theorem list_getD_set_ne {α : Type} (l : List α) :
    ∀ (r : Nat) (m d : α) (j : Nat), j ≠ r →
      (l.set r m).getD j d = l.getD j d := by
  induction l with
  | nil =>
    intro r m d j hj
    rfl
  | cons a t ih =>
    intro r m d j hj
    cases r with
    | zero =>
      cases j with
      | zero => exact absurd rfl hj
      | succ j2 => rfl
    | succ r2 =>
      cases j with
      | zero => rfl
      | succ j2 =>
        exact ih r2 m d j2 (fun he => hj (congrArg Nat.succ he))

/-- Helper: appending to a list leaves the existing positions readable. -/
theorem list_getD_append_lt {α : Type} (l : List α) (x d : α) :
    ∀ j, j < l.length → (l ++ [x]).getD j d = l.getD j d := by
  induction l with
  | nil =>
    intro j hj
    simp at hj
  | cons a t ih =>
    intro j hj
    cases j with
    | zero => rfl
    | succ j2 =>
      simp only [List.length_cons] at hj
      exact ih j2 (Nat.lt_of_succ_lt_succ hj)

/-- Helper: no option changes which map the configuration references. -/
theorem applyOpt_hintsRef (o : Solver.SolverOpt) (cfg : Solver.SolverCfg)
    (h : Solver.Heap) :
    ((Solver.applyOpt o cfg h).1).hintsRef = cfg.hintsRef := by
  cases o <;> rfl

/-- Helper: an option only writes the map behind the configuration
reference, leaving every other heap cell unchanged. -/
theorem applyOpt_heap_other (o : Solver.SolverOpt) (cfg : Solver.SolverCfg)
    (h : Solver.Heap) (j : Nat) (hj : j ≠ cfg.hintsRef) :
    ((Solver.applyOpt o cfg h).2.1).get j = h.get j := by
  cases o with
  | withHints hs => exact list_getD_set_ne h.maps cfg.hintsRef _ [] j hj
  | overrideHint id f => exact list_getD_set_ne h.maps cfg.hintsRef _ [] j hj
  | withLogger l => rfl

/-- Helper: applying an option updates the referenced map to its
value-level effect. -/
theorem applyOpt_heap_self (o : Solver.SolverOpt) (cfg : Solver.SolverCfg)
    (h : Solver.Heap) (hlen : cfg.hintsRef < h.maps.length) :
    ((Solver.applyOpt o cfg h).2.1).get cfg.hintsRef =
      Solver.applyOptVal o (h.get cfg.hintsRef) := by
  cases o with
  | withHints hs => exact list_getD_set_self h.maps cfg.hintsRef _ [] hlen
  | overrideHint id f => exact list_getD_set_self h.maps cfg.hintsRef _ [] hlen
  | withLogger l => rfl

/-- Helper: options do not change the number of allocated maps. -/
theorem applyOpt_heap_length (o : Solver.SolverOpt) (cfg : Solver.SolverCfg)
    (h : Solver.Heap) :
    ((Solver.applyOpt o cfg h).2.1).maps.length = h.maps.length := by
  cases o with
  | withHints hs => exact List.length_set h.maps cfg.hintsRef _
  | overrideHint id f => exact List.length_set h.maps cfg.hintsRef _
  | withLogger l => rfl

/-- Helper: option lists keep the configuration map reference. -/
theorem applyOpts_hintsRef (opts : List Solver.SolverOpt) :
    ∀ (cfg : Solver.SolverCfg) (h : Solver.Heap),
      ((Solver.applyOpts opts cfg h).1).hintsRef = cfg.hintsRef := by
  induction opts with
  | nil =>
    intro cfg h
    rfl
  | cons o t ih =>
    intro cfg h
    exact (ih (Solver.applyOpt o cfg h).1 (Solver.applyOpt o cfg h).2.1).trans
      (applyOpt_hintsRef o cfg h)

/-- Helper: option lists only write the map behind the configuration
reference. -/
theorem applyOpts_heap_other (opts : List Solver.SolverOpt) :
    ∀ (cfg : Solver.SolverCfg) (h : Solver.Heap) (j : Nat),
      j ≠ cfg.hintsRef →
      ((Solver.applyOpts opts cfg h).2.1).get j = h.get j := by
  induction opts with
  | nil =>
    intro cfg h j hj
    rfl
  | cons o t ih =>
    intro cfg h j hj
    have hstep : ((Solver.applyOpts (o :: t) cfg h).2.1).get j =
        ((Solver.applyOpts t (Solver.applyOpt o cfg h).1
          (Solver.applyOpt o cfg h).2.1).2.1).get j := rfl
    rw [hstep]
    rw [ih (Solver.applyOpt o cfg h).1 (Solver.applyOpt o cfg h).2.1 j
      (by rw [applyOpt_hintsRef]; exact hj)]
    exact applyOpt_heap_other o cfg h j hj

/-- Helper: option lists do not change the number of allocated maps. -/
theorem applyOpts_heap_length (opts : List Solver.SolverOpt) :
    ∀ (cfg : Solver.SolverCfg) (h : Solver.Heap),
      ((Solver.applyOpts opts cfg h).2.1).maps.length = h.maps.length := by
  induction opts with
  | nil =>
    intro cfg h
    rfl
  | cons o t ih =>
    intro cfg h
    exact (ih (Solver.applyOpt o cfg h).1 (Solver.applyOpt o cfg h).2.1).trans
      (applyOpt_heap_length o cfg h)

/-- Helper: the configuration map after applying an option list is the
value-level application of the options, in order, to its prior value. -/
theorem applyOpts_heap_self (opts : List Solver.SolverOpt) :
    ∀ (cfg : Solver.SolverCfg) (h : Solver.Heap),
      cfg.hintsRef < h.maps.length →
      ((Solver.applyOpts opts cfg h).2.1).get cfg.hintsRef =
        Solver.applyOptsVal opts (h.get cfg.hintsRef) := by
  induction opts with
  | nil =>
    intro cfg h hlen
    rfl
  | cons o t ih =>
    intro cfg h hlen
    have hstep : ((Solver.applyOpts (o :: t) cfg h).2.1).get cfg.hintsRef =
        ((Solver.applyOpts t (Solver.applyOpt o cfg h).1
          (Solver.applyOpt o cfg h).2.1).2.1).get cfg.hintsRef := rfl
    rw [hstep]
    have hlen2 : ((Solver.applyOpt o cfg h).1).hintsRef <
        ((Solver.applyOpt o cfg h).2.1).maps.length := by
      rw [applyOpt_hintsRef, applyOpt_heap_length]
      exact hlen
    have hrw : cfg.hintsRef = ((Solver.applyOpt o cfg h).1).hintsRef :=
      (applyOpt_hintsRef o cfg h).symm
    rw [hrw]
    rw [ih (Solver.applyOpt o cfg h).1 (Solver.applyOpt o cfg h).2.1 hlen2]
    rw [← hrw]
    rw [applyOpt_heap_self o cfg h hlen]
    rfl

/-- C8: NewConfig copies every entry of the global hint registry into a
fresh map and then applies the options in order over that copy; no option
mutates the registry, whose contents after NewConfig returns are exactly
what they were before, and the configuration map is a different heap cell
than the registry. -/
theorem newConfig_registry_frame (h : Solver.Heap)
    (registryRef defaultLogger : Nat) (opts : List Solver.SolverOpt)
    (hlt : registryRef < h.maps.length) :
    ((Solver.NewConfig h registryRef defaultLogger opts).2.1).get registryRef =
      h.get registryRef
    ∧ ((Solver.NewConfig h registryRef defaultLogger opts).2.1).get
        ((Solver.NewConfig h registryRef defaultLogger opts).1.hintsRef) =
        Solver.applyOptsVal opts (Solver.copyMap (h.get registryRef))
    ∧ (Solver.NewConfig h registryRef defaultLogger opts).1.hintsRef ≠
        registryRef := by
  have hne : registryRef ≠ h.maps.length := Nat.ne_of_lt hlt
  have h1get : (⟨h.maps ++ [[]]⟩ : Solver.Heap).get registryRef =
      h.get registryRef :=
    list_getD_append_lt h.maps [] [] registryRef hlt
  have hdef : Solver.NewConfig h registryRef defaultLogger opts =
      Solver.applyOpts opts ⟨h.maps.length, defaultLogger⟩
        (Solver.Heap.setMap ⟨h.maps ++ [[]]⟩ h.maps.length
          (Solver.copyMap
            ((⟨h.maps ++ [[]]⟩ : Solver.Heap).get registryRef))) := rfl
  have h2reg : (Solver.Heap.setMap ⟨h.maps ++ [[]]⟩ h.maps.length
      (Solver.copyMap
        ((⟨h.maps ++ [[]]⟩ : Solver.Heap).get registryRef))).get registryRef =
      h.get registryRef :=
    (list_getD_set_ne (h.maps ++ [[]]) h.maps.length _ [] registryRef
      hne).trans h1get
  have h2lenlist : (h.maps ++ [[]]).length = h.maps.length + 1 := by simp
  have h2n : (Solver.Heap.setMap ⟨h.maps ++ [[]]⟩ h.maps.length
      (Solver.copyMap
        ((⟨h.maps ++ [[]]⟩ : Solver.Heap).get registryRef))).get
        h.maps.length =
      Solver.copyMap (h.get registryRef) := by
    rw [show (Solver.Heap.setMap ⟨h.maps ++ [[]]⟩ h.maps.length
        (Solver.copyMap
          ((⟨h.maps ++ [[]]⟩ : Solver.Heap).get registryRef))).get
          h.maps.length =
        ((h.maps ++ [[]]).set h.maps.length
          (Solver.copyMap
            ((⟨h.maps ++ [[]]⟩ : Solver.Heap).get registryRef))).getD
          h.maps.length [] from rfl]
    rw [list_getD_set_self (h.maps ++ [[]]) h.maps.length _ []
      (by rw [h2lenlist]; exact Nat.lt_succ_self _)]
    rw [h1get]
  have h2len : (Solver.Heap.setMap ⟨h.maps ++ [[]]⟩ h.maps.length
      (Solver.copyMap
        ((⟨h.maps ++ [[]]⟩ : Solver.Heap).get registryRef))).maps.length =
      h.maps.length + 1 := by
    rw [show (Solver.Heap.setMap ⟨h.maps ++ [[]]⟩ h.maps.length
        (Solver.copyMap
          ((⟨h.maps ++ [[]]⟩ : Solver.Heap).get registryRef))).maps =
        (h.maps ++ [[]]).set h.maps.length
          (Solver.copyMap
            ((⟨h.maps ++ [[]]⟩ : Solver.Heap).get registryRef)) from rfl]
    rw [List.length_set]
    exact h2lenlist
  refine ⟨?_, ?_, ?_⟩
  · rw [hdef]
    rw [applyOpts_heap_other opts ⟨h.maps.length, defaultLogger⟩ _
      registryRef hne]
    exact h2reg
  · rw [hdef]
    rw [applyOpts_hintsRef opts ⟨h.maps.length, defaultLogger⟩ _]
    rw [applyOpts_heap_self opts ⟨h.maps.length, defaultLogger⟩ _
      (by rw [h2len]; exact Nat.lt_succ_self _)]
    rw [h2n]
  · rw [hdef]
    rw [applyOpts_hintsRef opts ⟨h.maps.length, defaultLogger⟩ _]
    exact Ne.symm hne

/-- Witness for C8: on a concrete one-map heap holding the registry, a
NewConfig call applying an override option leaves the registry cell
unchanged and produces the overridden copy in the fresh cell. -/
theorem newConfig_registry_frame_witness :
    ((Solver.NewConfig ⟨[[(1, 5)]]⟩ 0 0 [.overrideHint 1 7]).2.1).get 0 =
      [(1, 5)]
    ∧ ((Solver.NewConfig ⟨[[(1, 5)]]⟩ 0 0 [.overrideHint 1 7]).2.1).get
        ((Solver.NewConfig ⟨[[(1, 5)]]⟩ 0 0 [.overrideHint 1 7]).1.hintsRef) =
      [(1, 7)]
    ∧ (Solver.NewConfig ⟨[[(1, 5)]]⟩ 0 0 [.overrideHint 1 7]).1.hintsRef ≠
        0 := by
  have h := newConfig_registry_frame ⟨[[(1, 5)]]⟩ 0 0 [.overrideHint 1 7]
    (by decide)
  refine ⟨h.1.trans (by decide), h.2.1.trans (by decide), h.2.2⟩

/-- Helper: the two stored parameter sets are distinct (their b
coefficients differ). -/
theorem secp256k1Params_ne_bn254Params :
    SwEmulated.secp256k1Params ≠ SwEmulated.bn254Params := by
  decide

/-- Helper: the two recognized moduli are distinct. -/
theorem secp256k1Modulus_ne_bn254Modulus :
    SwEmulated.secp256k1Modulus ≠ SwEmulated.bn254Modulus := by
  decide

/-- C10: GetCurveParams returns the precomputed secp256k1 parameter set
exactly when the Base modulus is the secp256k1 base-field modulus, the
precomputed BN254 parameter set exactly when it is the BN254 base-field
modulus, and panics with the no-stored-parameters message for every
other modulus. -/
theorem getCurveParams_selection (m : Nat) :
    (SwEmulated.GetCurveParams m = .ok SwEmulated.secp256k1Params ↔
      m = SwEmulated.secp256k1Modulus)
    ∧ (SwEmulated.GetCurveParams m = .ok SwEmulated.bn254Params ↔
        m = SwEmulated.bn254Modulus)
    ∧ (m ≠ SwEmulated.secp256k1Modulus → m ≠ SwEmulated.bn254Modulus →
        SwEmulated.GetCurveParams m = .panicked ("no stored parameters")) := by
  by_cases h1 : m = SwEmulated.secp256k1Modulus
  · subst h1
    refine ⟨⟨fun _ => rfl, fun _ => by simp [SwEmulated.GetCurveParams]⟩,
      ⟨?_, ?_⟩, ?_⟩
    · intro hc
      simp [SwEmulated.GetCurveParams] at hc
      exact absurd hc.symm (Ne.symm secp256k1Params_ne_bn254Params)
    · intro hc
      exact absurd hc secp256k1Modulus_ne_bn254Modulus
    · intro hc
      exact absurd rfl hc
  · by_cases h2 : m = SwEmulated.bn254Modulus
    · subst h2
      refine ⟨⟨?_, ?_⟩, ⟨fun _ => ?_, fun _ => rfl⟩, fun _ hc => ?_⟩
      · intro hc
        simp [SwEmulated.GetCurveParams,
          Ne.symm secp256k1Modulus_ne_bn254Modulus] at hc
        exact absurd hc (Ne.symm secp256k1Params_ne_bn254Params)
      · intro hc
        exact absurd hc (Ne.symm secp256k1Modulus_ne_bn254Modulus)
      · simp [SwEmulated.GetCurveParams,
          Ne.symm secp256k1Modulus_ne_bn254Modulus]
      · exact absurd rfl hc
    · have hres : SwEmulated.GetCurveParams m =
          .panicked ("no stored parameters") := by
        simp [SwEmulated.GetCurveParams, h1, h2]
      refine ⟨⟨?_, fun hc => absurd hc h1⟩,
        ⟨?_, fun hc => absurd hc h2⟩, fun _ _ => hres⟩
      · intro hc
        rw [hres] at hc
        exact SwEmulated.GetParamsOutcome.noConfusion hc
      · intro hc
        rw [hres] at hc
        exact SwEmulated.GetParamsOutcome.noConfusion hc

/-- Witness for C10: the BN254 modulus maps to the BN254 parameter set
and a small concrete modulus panics. -/
theorem getCurveParams_selection_witness :
    SwEmulated.GetCurveParams SwEmulated.bn254Modulus =
      .ok SwEmulated.bn254Params
    ∧ SwEmulated.GetCurveParams 5 = .panicked ("no stored parameters") := by
  constructor
  · exact (getCurveParams_selection SwEmulated.bn254Modulus).2.1.mpr rfl
  · exact (getCurveParams_selection 5).2.2 (by decide) (by decide)
